import Mathlib

/-!
Shallow embedding of `abstract-ws-web` (`src/lib.rs`), a browser WebSocket
adapter exposing an async connect, a pull-based byte stream and a byte sink.

Modelling conventions:
* `Bytes` (a payload) is a list of opaque byte values; `JsV` stands for an
  opaque `JsValue` (error payloads are never inspected by the adapter).
* The host `WebSocket` is modelled by its four handler registration slots
  (`onopen`/`onerror`/`onmessage`/`onclose`), a trace of the events it fires
  (`HostEvent`), and the results it returns from its synchronous calls
  (`new`, `send_with_u8_array`, `close`).
* The `futures` one-shot channels of the handshake are `Option (Option JsV)`
  cells; the `Option`-wrapped senders taken by `Option::take` in the
  `on_open`/`on_error` closures are the `...SenderLive` booleans.
* The unbounded mpsc channel is a `Queue`: a FIFO buffer plus a `closed`
  flag; `unboundedSend` drops the item once the channel is closed, and the
  receiver (`poll_next`) drains the buffer before reporting end-of-stream.
* Execution is single-threaded and event-driven: each host event is
  delivered in its own task, and a future woken by a one-shot send is
  polled before the next event is delivered, so the handshake resolves at
  the first event that writes a cell.
-/

namespace AbstractWsWeb

/-- A byte payload carried by one host message event (`Vec<u8>`). -/
abbrev Bytes := List Nat

/-- An opaque `JsValue` (used for error payloads). -/
abbrev JsV := Nat

/-- One event fired by the host `WebSocket`. -/
inductive HostEvent where
  | openEv
  | errorEv (e : JsV)
  | messageEv (data : Bytes)
  | closeEv
deriving DecidableEq, Repr

/-- The unbounded mpsc channel of `futures::channel::mpsc::unbounded` (lib.rs
line 31): a FIFO buffer and a closed flag. -/
structure Queue where
  buffer : List Bytes
  closed : Bool
deriving DecidableEq, Repr

/-- `UnboundedSender::unbounded_send` (lib.rs line 67): enqueue at the back;
after `close_channel` the send fails and the item is dropped (the result is
discarded by `let _ =` in the source). -/
def Queue.unboundedSend (q : Queue) (d : Bytes) : Queue :=
  if q.closed then q else { q with buffer := q.buffer ++ [d] }

/-- `UnboundedSender::close_channel` (lib.rs line 74). -/
def Queue.closeChannel (q : Queue) : Queue :=
  { q with closed := true }

/-- The result of one `Stream::poll_next` call. -/
inductive PollNextR where
  | yield (d : Bytes)
  | eos
  | pending
deriving DecidableEq, Repr

/-- `UnboundedReceiver::poll_next`: a buffered item is yielded in FIFO
order; an empty closed channel is end-of-stream; otherwise pending. -/
def Queue.poll_next (q : Queue) : PollNextR × Queue :=
  match q.buffer with
  | d :: rest => (.yield d, { q with buffer := rest })
  | [] => if q.closed then (.eos, q) else (.pending, q)

/-- The `Socket` struct (lib.rs lines 20-27): its observable state is the
receiver end of the message queue; the `inner` handle and the two owned
closures are modelled by the registration/liveness flags of `ConnectResult`
and by the host-call parameters of the sink operations. -/
structure Socket where
  messages : Queue
deriving DecidableEq, Repr

deriving instance DecidableEq for Except

/-- `<Socket as Stream>::poll_next` (lib.rs lines 102-104): delegate to the
receiver. -/
def Socket.poll_next (s : Socket) : PollNextR × Socket :=
  match s.messages.poll_next with
  | (r, q) => (r, { s with messages := q })

/-- Poll the stream up to `n` times, collecting the yielded payloads and
stopping at the first non-`yield` result. -/
def Socket.pollN : Socket → Nat → List Bytes × Socket
  | s, 0 => ([], s)
  | s, n + 1 =>
    match s.poll_next with
    | (.yield d, s') =>
      let p := Socket.pollN s' n
      (d :: p.1, p.2)
    | (.eos, s') => ([], s')
    | (.pending, s') => ([], s')

/-- The body of the `on_message` closure, lib.rs lines 64-66: allocate a
zero vector of the payload's length (`vec![0u8; buffer.length()]`), then
copy the bytes in (`buffer.copy_to`). -/
def copyPayload (data : Bytes) : Bytes :=
  List.zipWith (fun _ b => b) (List.replicate data.length (0 : Nat)) data

/-- Host events delivered to a socket after the connect handshake resolved:
`onopen`/`onerror` were set to `None` (lib.rs lines 57-58), so open/error
events find no handler; `on_message` (lines 63-68) copies the payload and
sends it on the queue; `on_close` (lines 73-75) closes the channel. -/
def Socket.fireOpened (s : Socket) : HostEvent → Socket
  | .messageEv d => ⟨s.messages.unboundedSend (copyPayload d)⟩
  | .closeEv => ⟨s.messages.closeChannel⟩
  | _ => s

/-- Deliver a trace of host events to a connected socket. -/
def Socket.runOpened (s : Socket) (events : List HostEvent) : Socket :=
  events.foldl Socket.fireOpened s

/-- State of the connect handshake (lib.rs lines 38-50): the two one-shot
cells created by `channel()`, the `Option`-wrapped senders consumed by
`Option::take`, and counters of how many times each cell was written. -/
structure HandshakeState where
  openSenderLive : Bool
  errorSenderLive : Bool
  openCell : Option (Option JsV)
  errorCell : Option (Option JsV)
  openWrites : Nat
  errorWrites : Nat
deriving DecidableEq, Repr

/-- Handshake state right after `set_onopen`/`set_onerror` (lib.rs lines
52-53): both senders live, both cells empty. -/
def initHandshake : HandshakeState :=
  ⟨true, true, none, none, 0, 0⟩

/-- One host event delivered while `on_open`/`on_error` are registered:
`on_open` (lib.rs lines 44-46) takes its sender and sends `None`; `on_error`
(lines 48-50) takes its sender and sends `Some(e)`; a second firing finds
the sender already taken and does nothing. `onmessage`/`onclose` are not
registered yet (they are set only at lines 71 and 77), so message and close
events are dropped. -/
def fireHandshake (s : HandshakeState) : HostEvent → HandshakeState
  | .openEv =>
    if s.openSenderLive then
      { s with openSenderLive := false, openCell := some none,
               openWrites := s.openWrites + 1 }
    else s
  | .errorEv e =>
    if s.errorSenderLive then
      { s with errorSenderLive := false, errorCell := some (some e),
               errorWrites := s.errorWrites + 1 }
    else s
  | .messageEv _ => s
  | .closeEv => s

/-- Whether `select(open, error)` (lib.rs line 55) is ready to resolve. -/
def HandshakeState.resolved (s : HandshakeState) : Bool :=
  s.openCell.isSome || s.errorCell.isSome

/-- Deliver host events until the `select` resolves (the connect future is
woken by the first one-shot send and polled before the next event is
delivered); returns the handshake state and the undelivered events. -/
def runHandshake (s : HandshakeState) : List HostEvent → HandshakeState × List HostEvent
  | [] => (s, [])
  | e :: rest =>
    let s' := fireHandshake s e
    if s'.resolved then (s', rest) else runHandshake s' rest

/-- The value read by `select(open, error).await.factor_first().0.unwrap()`
(lib.rs line 55): `select` polls its first argument first, so the open cell
wins when both are written; `none` means neither resolved. -/
def selectResult (s : HandshakeState) : Option (Option JsV) :=
  match s.openCell with
  | some v => some v
  | none => s.errorCell

/-- The handler registration slots of the host `WebSocket`. -/
structure SockRegs where
  onopen : Bool
  onerror : Bool
  onmessage : Bool
  onclose : Bool
deriving DecidableEq, Repr

/-- Everything observable when the future returned by `Socket::new` is done
with a trace of host events: the value produced (`none` while the handshake
is unresolved), the host socket's registration slots, whether the registered
`on_message`/`on_close` closures are still owned by live Rust values (in the
error path they are dropped when the async block returns, leaving the
registration dangling), how many times `WebSocket::close` was called, and
the events not yet delivered when the future completed. -/
structure ConnectResult where
  result : Option (Except JsV Socket)
  sock : SockRegs
  onmessageLive : Bool
  oncloseLive : Bool
  closeCalls : Nat
  residual : List HostEvent
deriving DecidableEq, Repr

/-- `Socket::new` (lib.rs lines 30-90). `ctor` is the result of the
synchronous `WebSocket::new(url)` call at line 33; `events` is the trace the
host fires. On ctor failure, `socket?` (line 36) returns the error before
any channel is registered or awaited. Otherwise the handshake runs (lines
38-55), `onopen`/`onerror` are cleared (lines 57-58), `onmessage` and
`onclose` are registered (lines 60-77) — note: before the result is
branched on — and finally the result is produced (lines 79-88): the error
path returns `Err` and drops the two closures just registered, while the
success path moves them into the returned `Socket`. `Socket::new` never
calls `WebSocket::close`. -/
def Socket.new (ctor : Except JsV Unit) (events : List HostEvent) : ConnectResult :=
  match ctor with
  | .error e =>
    { result := some (.error e), sock := ⟨false, false, false, false⟩,
      onmessageLive := false, oncloseLive := false, closeCalls := 0,
      residual := events }
  | .ok _ =>
    let s := (runHandshake initHandshake events).1
    let rest := (runHandshake initHandshake events).2
    match selectResult s with
    | none =>
      { result := none, sock := ⟨true, true, false, false⟩,
        onmessageLive := false, oncloseLive := false, closeCalls := 0,
        residual := rest }
    | some (some e) =>
      { result := some (.error e), sock := ⟨false, false, true, true⟩,
        onmessageLive := false, oncloseLive := false, closeCalls := 0,
        residual := rest }
    | some none =>
      { result := some (.ok ⟨⟨[], false⟩⟩), sock := ⟨false, false, true, true⟩,
        onmessageLive := true, oncloseLive := true, closeCalls := 0,
        residual := rest }

/-- The result of one sink poll. -/
inductive PollR where
  | readyOk
  | readyErr (e : JsV)
  | pending
deriving DecidableEq, Repr

/-- `Sink::poll_ready` (lib.rs lines 110-112): unconditionally ready. -/
def Socket.poll_ready (_self : Socket) : PollR :=
  .readyOk

/-- `Sink::poll_flush` (lib.rs lines 118-120): unconditionally ready. -/
def Socket.poll_flush (_self : Socket) : PollR :=
  .readyOk

/-- `Sink::start_send` (lib.rs lines 114-116): forward the payload to
`WebSocket::send_with_u8_array` and return its result; `hostSend` is the
host's behaviour for that call. The socket state is untouched. -/
def Socket.start_send (self : Socket) (hostSend : Bytes → Except JsV Unit)
    (item : Bytes) : Except JsV Unit × Socket :=
  (hostSend item, self)

/-- `Sink::poll_close` (lib.rs lines 122-126): call `WebSocket::close`
(counted in `closeCalls`), propagate its error with `?`, otherwise report
ready; it never returns pending. -/
def Socket.poll_close (hostClose : Except JsV Unit) (closeCalls : Nat) :
    PollR × Nat :=
  (match hostClose with
   | .error e => .readyErr e
   | .ok _ => .readyOk,
   closeCalls + 1)

/-- `Drop::drop` (lib.rs lines 93-97): `let _ = self.inner.close();` — one
close call on the host socket, its result discarded, independent of the
socket's state. Returns the updated close-call count. -/
def Socket.drop (_self : Socket) (_hostCloseResult : Except JsV Unit)
    (closeCalls : Nat) : Nat :=
  closeCalls + 1

/-- The payload of the first open or error event in a trace, in the encoding
of the one-shot cells: `some none` for open, `some (some e)` for error. -/
def firstRace : List HostEvent → Option (Option JsV)
  | [] => none
  | .openEv :: _ => some none
  | .errorEv e :: _ => some (some e)
  | .messageEv _ :: rest => firstRace rest
  | .closeEv :: rest => firstRace rest

/-! Helper lemmas. -/

theorem copyPayload_eq (d : Bytes) : copyPayload d = d := by
  induction d with
  | nil => rfl
  | cons a tl ih =>
    simp only [copyPayload, List.length_cons, List.replicate_succ,
      List.zipWith_cons_cons] at *
    exact congrArg (a :: ·) ih

theorem runOpened_messages (ps : List Bytes) (buf : List Bytes) :
    Socket.runOpened ⟨⟨buf, false⟩⟩ (ps.map HostEvent.messageEv)
      = ⟨⟨buf ++ ps, false⟩⟩ := by
  induction ps generalizing buf with
  | nil => simp [Socket.runOpened]
  | cons p tl ih =>
    have h1 : Socket.fireOpened ⟨⟨buf, false⟩⟩ (HostEvent.messageEv p)
        = ⟨⟨buf ++ [p], false⟩⟩ := by
      simp [Socket.fireOpened, Queue.unboundedSend, copyPayload_eq]
    simp only [List.map_cons, Socket.runOpened, List.foldl_cons]
    rw [h1]
    have := ih (buf ++ [p])
    simp only [Socket.runOpened] at this
    rw [this]
    simp

theorem runOpened_closed (ps : List Bytes) (buf : List Bytes) :
    Socket.runOpened ⟨⟨buf, true⟩⟩ (ps.map HostEvent.messageEv)
      = ⟨⟨buf, true⟩⟩ := by
  induction ps with
  | nil => rfl
  | cons p tl ih =>
    simp only [List.map_cons, Socket.runOpened, List.foldl_cons] at *
    have h1 : Socket.fireOpened ⟨⟨buf, true⟩⟩ (HostEvent.messageEv p)
        = ⟨⟨buf, true⟩⟩ := by
      simp [Socket.fireOpened, Queue.unboundedSend]
    rw [h1, ih]

theorem pollN_drain (ps : List Bytes) (c : Bool) :
    Socket.pollN ⟨⟨ps, c⟩⟩ ps.length = (ps, ⟨⟨[], c⟩⟩) := by
  induction ps with
  | nil => rfl
  | cons p tl ih =>
    simp [Socket.pollN, Socket.poll_next, Queue.poll_next, ih]

/-- The invariant making the one-shot cells single-write: a live sender
means no write has happened yet, and each write counter stays below two. -/
def WritesInv (s : HandshakeState) : Prop :=
  (s.openSenderLive = true → s.openWrites = 0) ∧ s.openWrites ≤ 1 ∧
  (s.errorSenderLive = true → s.errorWrites = 0) ∧ s.errorWrites ≤ 1

theorem writesInv_fire (s : HandshakeState) (e : HostEvent)
    (h : WritesInv s) : WritesInv (fireHandshake s e) := by
  obtain ⟨h1, h2, h3, h4⟩ := h
  cases e with
  | openEv =>
    cases hl : s.openSenderLive with
    | true =>
      refine ⟨?_, ?_, ?_, ?_⟩
      · simp [fireHandshake, hl]
      · simp [fireHandshake, hl, h1 hl]
      · simpa [fireHandshake, hl] using h3
      · simpa [fireHandshake, hl] using h4
    | false =>
      have hid : fireHandshake s HostEvent.openEv = s := by
        simp [fireHandshake, hl]
      rw [hid]
      exact ⟨h1, h2, h3, h4⟩
  | errorEv e =>
    cases hl : s.errorSenderLive with
    | true =>
      refine ⟨?_, ?_, ?_, ?_⟩
      · simpa [fireHandshake, hl] using h1
      · simpa [fireHandshake, hl] using h2
      · simp [fireHandshake, hl]
      · simp [fireHandshake, hl, h3 hl]
    | false =>
      have hid : fireHandshake s (HostEvent.errorEv e) = s := by
        simp [fireHandshake, hl]
      rw [hid]
      exact ⟨h1, h2, h3, h4⟩
  | messageEv d => exact ⟨h1, h2, h3, h4⟩
  | closeEv => exact ⟨h1, h2, h3, h4⟩

theorem writesInv_fold (events : List HostEvent) (s : HandshakeState)
    (h : WritesInv s) : WritesInv (events.foldl fireHandshake s) := by
  induction events generalizing s with
  | nil => exact h
  | cons e rest ih => exact ih _ (writesInv_fire s e h)

theorem runHandshake_firstRace (events : List HostEvent) :
    selectResult (runHandshake initHandshake events).1 = firstRace events := by
  induction events with
  | nil => rfl
  | cons e rest ih =>
    cases e with
    | openEv => rfl
    | errorEv e => rfl
    | messageEv d =>
      simpa [runHandshake, fireHandshake, HandshakeState.resolved,
        initHandshake, firstRace] using ih
    | closeEv =>
      simpa [runHandshake, fireHandshake, HandshakeState.resolved,
        initHandshake, firstRace] using ih

/-! Claim theorems. -/

/-- Claim C1 (code bug, evaluated at the failing input): with the host
firing its error event (payload 7) before any open event, the connect
operation does fail with the host's error payload and never calls
`WebSocket::close` — but, contrary to the claim, the message and close
handler slots of the host socket remain registered afterwards (lib.rs sets
`onmessage`/`onclose` at lines 71 and 77 before branching on the handshake
result at line 79), while the closures they point to were dropped when the
async block returned `Err`. -/
theorem c1_error_first_leaves_handlers_registered :
    (Socket.new (.ok ()) [HostEvent.errorEv 7]).result = some (.error 7) ∧
    (Socket.new (.ok ()) [HostEvent.errorEv 7]).closeCalls = 0 ∧
    (Socket.new (.ok ()) [HostEvent.errorEv 7]).sock.onmessage = true ∧
    (Socket.new (.ok ()) [HostEvent.errorEv 7]).sock.onclose = true ∧
    (Socket.new (.ok ()) [HostEvent.errorEv 7]).onmessageLive = false ∧
    (Socket.new (.ok ()) [HostEvent.errorEv 7]).oncloseLive = false := by
  decide

/-- Claim C2: after a successful open, a trace of N message events makes the
stream yield exactly those N payloads, byte-for-byte and in order, leaving
an empty open queue (so nothing is reordered, duplicated, coalesced or
split). -/
theorem c2_read_yields_messages_in_order (ps : List Bytes) :
    (Socket.new (.ok ()) [HostEvent.openEv]).result = some (.ok ⟨⟨[], false⟩⟩) ∧
    Socket.pollN (Socket.runOpened ⟨⟨[], false⟩⟩ (ps.map HostEvent.messageEv))
        ps.length
      = (ps, ⟨⟨[], false⟩⟩) := by
  refine ⟨by decide, ?_⟩
  rw [runOpened_messages]
  simpa using pollN_drain ps false

/-- Claim C3: each one-shot cell is written at most once however often the
host repeats its events; whenever the trace contains an open or error event,
the connect operation resolves with the first such event as the unique
winner, and both the open and error handlers are deregistered from the host
socket, regardless of outcome. -/
theorem c3_handshake_one_shot (events : List HostEvent) :
    (events.foldl fireHandshake initHandshake).openWrites ≤ 1 ∧
    (events.foldl fireHandshake initHandshake).errorWrites ≤ 1 ∧
    (∀ v, firstRace events = some v →
      (Socket.new (.ok ()) events).sock.onopen = false ∧
      (Socket.new (.ok ()) events).sock.onerror = false ∧
      (Socket.new (.ok ()) events).result =
        some (match v with
              | none => Except.ok ⟨⟨[], false⟩⟩
              | some e => Except.error e)) := by
  have hinv := writesInv_fold events initHandshake
    (by simp [WritesInv, initHandshake])
  refine ⟨hinv.2.1, hinv.2.2.2, ?_⟩
  intro v hv
  have hsel := runHandshake_firstRace events
  rw [hv] at hsel
  simp only [Socket.new, hsel]
  cases v with
  | none => exact ⟨rfl, rfl, rfl⟩
  | some e => exact ⟨rfl, rfl, rfl⟩

/-- Witness for C3 at the concrete trace `[open]`. -/
theorem c3_handshake_one_shot_witness :
    (Socket.new (.ok ()) [HostEvent.openEv]).sock.onopen = false :=
  ((c3_handshake_one_shot [HostEvent.openEv]).2.2 none rfl).1

/-- Claim C4: when the host fires open first, connect succeeds, returning a
socket that owns the queue receiver and the live message/close callback
registrations; error events delivered afterwards hit a deregistered handler
slot and leave the socket unchanged. -/
theorem c4_open_first_succeeds (rest : List HostEvent) (e : JsV) (s : Socket) :
    (Socket.new (.ok ()) (HostEvent.openEv :: rest)).result
        = some (.ok ⟨⟨[], false⟩⟩) ∧
    (Socket.new (.ok ()) (HostEvent.openEv :: rest)).sock
        = ⟨false, false, true, true⟩ ∧
    (Socket.new (.ok ()) (HostEvent.openEv :: rest)).onmessageLive = true ∧
    (Socket.new (.ok ()) (HostEvent.openEv :: rest)).oncloseLive = true ∧
    (Socket.new (.ok ()) (HostEvent.openEv :: rest)).residual = rest ∧
    Socket.fireOpened s (HostEvent.errorEv e) = s := by
  refine ⟨?_, ?_, ?_, ?_, ?_, rfl⟩ <;>
    simp [Socket.new, runHandshake, fireHandshake, initHandshake,
      HandshakeState.resolved, selectResult]

/-- Claim C5: a close event closes the producer side of the queue, so the
stream yields exactly the payloads received before the close and then
reports end-of-stream; message events fired after the close are dropped and
never yielded. -/
theorem c5_close_ends_stream (before after : List Bytes) :
    Socket.runOpened ⟨⟨[], false⟩⟩
        (before.map HostEvent.messageEv
          ++ HostEvent.closeEv :: after.map HostEvent.messageEv)
      = ⟨⟨before, true⟩⟩ ∧
    Socket.pollN ⟨⟨before, true⟩⟩ before.length = (before, ⟨⟨[], true⟩⟩) ∧
    Socket.poll_next ⟨⟨[], true⟩⟩ = (.eos, ⟨⟨[], true⟩⟩) := by
  refine ⟨?_, pollN_drain before true, rfl⟩
  simp only [Socket.runOpened, List.foldl_append, List.foldl_cons]
  have h1 := runOpened_messages before []
  simp only [Socket.runOpened, List.nil_append] at h1
  rw [h1]
  have h2 : Socket.fireOpened ⟨⟨before, false⟩⟩ HostEvent.closeEv
      = ⟨⟨before, true⟩⟩ := rfl
  rw [h2]
  have h3 := runOpened_closed after before
  simpa only [Socket.runOpened] using h3

/-- Claim C6: the sink's readiness poll and flush poll return immediately
ready with success for every socket in every state. -/
theorem c6_sink_always_ready (s : Socket) :
    Socket.poll_ready s = PollR.readyOk ∧
    Socket.poll_flush s = PollR.readyOk :=
  ⟨rfl, rfl⟩

/-- Claim C7: when the host rejects an outbound payload, `start_send`
returns that rejection synchronously and the socket state is completely
unchanged. -/
theorem c7_send_rejection_leaves_state (s : Socket)
    (hostSend : Bytes → Except JsV Unit) (item : Bytes) (e : JsV)
    (h : hostSend item = .error e) :
    Socket.start_send s hostSend item = (.error e, s) := by
  simp [Socket.start_send, h]

/-- Witness for C7: a host that rejects every send, on a concrete socket
and payload. -/
theorem c7_send_rejection_leaves_state_witness :
    Socket.start_send ⟨⟨[], false⟩⟩ (fun _ => .error 3) [1, 2]
      = (.error 3, ⟨⟨[], false⟩⟩) :=
  c7_send_rejection_leaves_state ⟨⟨[], false⟩⟩ (fun _ => .error 3) [1, 2] 3 rfl

/-- Claim C8: `poll_close` issues the host close request (the close-call
count increments), returns the host's error to the caller when the request
is rejected, returns ready with success when it is accepted, and never
returns pending. -/
theorem c8_poll_close_immediate (n : Nat) (e : JsV) :
    Socket.poll_close (.ok ()) n = (.readyOk, n + 1) ∧
    Socket.poll_close (.error e) n = (.readyErr e, n + 1) ∧
    ∀ r : Except JsV Unit, (Socket.poll_close r n).1 ≠ PollR.pending := by
  refine ⟨rfl, rfl, ?_⟩
  intro r
  cases r <;> simp [Socket.poll_close]

/-- Claim C9: dropping a socket issues exactly one close request to the
host (the count goes from `n` to `n + 1`), whatever the socket's state and
whatever result the host returns for the close call (errors ignored). -/
theorem c9_drop_closes_exactly_once (s : Socket) (r : Except JsV Unit)
    (n : Nat) : Socket.drop s r n = n + 1 :=
  rfl

/-- Claim C10: when the synchronous host socket constructor fails, connect
returns that error immediately: no handler slot is ever registered and no
host event is consumed (the open/error race is never awaited). -/
theorem c10_ctor_failure_immediate (e : JsV) (events : List HostEvent) :
    Socket.new (.error e) events =
      { result := some (.error e), sock := ⟨false, false, false, false⟩,
        onmessageLive := false, oncloseLive := false, closeCalls := 0,
        residual := events } :=
  rfl

end AbstractWsWeb
